import Mathlib

/-!
Shallow embedding of the peer-discovery / note-synchronization core of
`src/src-tauri/src/main.rs` (a Tauri desktop notes application).

Modelling conventions:
* Rust `String` values are modelled as `List Char` (`Str`); byte vectors as
  `List Nat`.
* `HashMap` values and the on-disk notes directory are modelled as
  association lists with insert-or-overwrite semantics (a directory has
  unique file names; a `HashMap` has unique keys).
* Nondeterministic inputs (`uuid::Uuid::new_v4`, file-write failures,
  `fs::rename` failure, `local_ip()`, TCP bind success) are passed as
  explicit parameters/oracles.
* `tokio::spawn`-ed outbound HTTP messages are returned as values
  (fire-and-forget: the caller's result does not depend on their outcome).
* Tauri `emit` events are collected into a list of event names.
* Mutex poisoning (`lock()` failure, only possible after a panic) is not
  modelled; locks otherwise only serialize access and have no effect on a
  sequential model.
-/

abbrev Str := List Char

/-- Association-list lookup of the first entry with the given key
(models `HashMap::get` and looking a file up by name in a directory). -/
def lookupKey {β : Type} (k : Str) : List (Str × β) → Option β
  | [] => none
  | p :: rest => if p.1 = k then some p.2 else lookupKey k rest

/-- Association-list insert-or-overwrite (models `HashMap::insert` and
`fs::write`, which truncates an existing file or creates a new one). -/
def insertKey {β : Type} (k : Str) (v : β) : List (Str × β) → List (Str × β)
  | [] => [(k, v)]
  | p :: rest => if p.1 = k then (k, v) :: rest else p :: insertKey k v rest

/-- Association-list removal of the first entry with the given key
(models `HashMap::remove` and `fs::remove_file` / `fs::remove_dir_all`). -/
def removeKey {β : Type} (k : Str) : List (Str × β) → List (Str × β)
  | [] => []
  | p :: rest => if p.1 = k then rest else p :: removeKey k rest

/-- IP addresses: an IPv4 quad or an (unexamined) IPv6 address. -/
inductive IpAddr where
  | v4 : Nat → Nat → Nat → Nat → IpAddr
  | v6 : Nat → IpAddr
deriving DecidableEq, Repr

/-- `Ipv4Addr::LOCALHOST` (127.0.0.1). -/
def localhostIp : IpAddr := .v4 127 0 0 1

/-- `Ipv4Addr::new(0, 0, 0, 0)` (bind to all interfaces). -/
def anyIp : IpAddr := .v4 0 0 0 0

/-- `struct Note` of the source.  The `datetime` field (the file's
modification time, used only for the final sort of `get_notes`) is omitted:
no claim concerns timestamps or listing order, and every statement below is
about membership/ids, which the sort does not change. -/
structure Note where
  id : Str
  title : Str
  content : Str
  attachments : List Str
deriving DecidableEq, Repr

/-- `struct SyncRequest` of the source (the wire-level sync proposal). -/
structure SyncRequest where
  peer_id : Str
  peer_name : Str
  note : Note
  attachments_data : List (Str × List Nat)
deriving DecidableEq, Repr

/-- `struct PeerDevice` of the source. -/
structure PeerDevice where
  id : Str
  name : Str
  ip : IpAddr
  port : Nat
deriving DecidableEq, Repr

/-- `enum SyncStatus` of the source. -/
inductive SyncStatus where
  | Pending
  | Accepted
  | Rejected
deriving DecidableEq, Repr

/-- `struct SyncNotification` of the source. -/
structure SyncNotification where
  id : Str
  from_peer : PeerDevice
  note_title : Str
  status : SyncStatus
deriving DecidableEq, Repr

/-- `struct AppState` of the source: the shared registry. -/
structure AppState where
  device_id : Str
  device_name : Str
  peers : List (Str × PeerDevice)
  sync_notifications : List SyncNotification
deriving DecidableEq, Repr

/-- The notes directory on disk: `notes` maps a file name (with its
extension, e.g. `n1.md` or `n1.md.sync`) to its text content;
`attachments` maps a note id to the contents of
`notes/attachments/{note_id}` (file name to bytes).  Directory creation
(`fs::create_dir_all`, which the source performs eagerly in
`get_notes_dir`/`get_attachments_dir`) is not tracked: an absent key and an
empty directory are both read back as "no attachment files". -/
structure Fs where
  notes : List (Str × Str)
  attachments : List (Str × List (Str × List Nat))
deriving DecidableEq, Repr

/-- Files of `notes/attachments/{note_id}` (empty when the directory is
absent), as listed by `fs::read_dir` on the attachments directory. -/
def attachmentsFor (fs : Fs) (note_id : Str) : List (Str × List Nat) :=
  (lookupKey note_id fs.attachments).getD []

/-- Write one attachment file (`fs::write` under
`notes/attachments/{note_id}/{name}`). -/
def writeAttachment (fs : Fs) (note_id name : Str) (bytes : List Nat) : Fs :=
  { fs with attachments :=
      insertKey note_id (insertKey name bytes (attachmentsFor fs note_id)) fs.attachments }

/-- Model of Rust `Path::extension`: the substring after the last `.`,
when the name contains one (faithful for file names that do not consist of
a single leading dot followed by a bare name, the only case where Rust
treats the dot as part of the stem; no file name built by this program is
of that shape). -/
def extension (name : Str) : Option Str :=
  let r := name.reverse
  if '.' ∈ r then some (r.takeWhile (fun c => c ≠ '.')).reverse else none

/-- Model of Rust `Path::file_stem`: the part before the last `.` (same
proviso as `extension`). -/
def fileStem (name : Str) : Str :=
  let r := name.reverse
  if '.' ∈ r then ((r.dropWhile (fun c => c ≠ '.')).drop 1).reverse else name

/-- `get_note_path`: the committed file name `{id}.md` (the directory
prefix is left implicit: all note files live in the one notes directory). -/
def get_note_path (id : Str) : Str := id ++ ".md".toList

/-- The provisional staging name used by the `/sync/request` handler:
`format!("{}.sync", path)` applied to `get_note_path`, i.e.
`{id}.md.sync`. -/
def stagedName (id : Str) : Str := get_note_path id ++ ".sync".toList

/-- `format!("# {}\n\n{}", title, content)`: how `save_note` and the
inbound handler render a note body to disk. -/
def renderNote (title content : Str) : Str :=
  "# ".toList ++ title ++ '\n' :: '\n' :: content

/-- Title recovery in `get_notes`: the first line with a `# ` prefix,
otherwise `"Untitled"` (also when the file is empty). -/
def parseTitle (content : Str) : Str :=
  let firstLine := content.takeWhile (fun c => c ≠ '\n')
  if firstLine.take 2 = "# ".toList then firstLine.drop 2 else "Untitled".toList

/-- `get_notes`: lists exactly the files of the notes directory whose
extension is `md`, with `id = file_stem`, the parsed title, the raw file
content, and the names found in `notes/attachments/{id}`.  The source's
final sort by modification time is omitted (see `Note`); it permutes the
result and no claim below depends on order. -/
def get_notes (fs : Fs) : List Note :=
  fs.notes.filterMap fun e =>
    if extension e.1 = some ("md".toList) then
      some { id := fileStem e.1
             title := parseTitle e.2
             content := e.2
             attachments := (attachmentsFor fs (fileStem e.1)).map Prod.fst }
    else none

/-- `get_peers`: a snapshot of the registry's peer map values. -/
def get_peers (st : AppState) : List PeerDevice := st.peers.map Prod.snd

/-- The JSON acknowledgment body returned by the HTTP handlers. -/
structure Ack where
  success : Bool
deriving DecidableEq, Repr

/-- Result of the `POST /sync/request` handler: updated registry state,
updated disk state, emitted UI events, and the HTTP response. -/
structure HandlerOut where
  state : AppState
  fs : Fs
  events : List Str
  ack : Ack
deriving DecidableEq, Repr

/-- The attachment-staging loop of the `/sync/request` handler: write each
entry of `attachments_data` under `notes/attachments/{note_id}`, skipping
(and, in the source, logging) any write that fails per the `attFails`
oracle. -/
def stageAttachments (note_id : Str) (attFails : List (Str × Str)) :
    List (Str × List Nat) → Fs → Fs
  | [], fs => fs
  | fd :: rest, fs =>
    stageAttachments note_id attFails rest
      (if (note_id, fd.1) ∈ attFails then fs
       else writeAttachment fs note_id fd.1 fd.2)

/-- The `POST /sync/request` handler (closure in `main`).
`notification_id` stands for the freshly generated `uuid::Uuid::new_v4()`.
`noteFails` / `attFails` are failure oracles: the staged-body write fails
iff its file name is in `noteFails`; the write of attachment `name` for
note `id` fails iff `(id, name) ∈ attFails`.  A failed write is logged and
leaves the disk unchanged, exactly as the source ignores the `Err` case.

Order as in the source: the Pending notification is pushed into the
registry first (before any disk write), then the note body is staged at
`{id}.md.sync`, then each attachment is written under
`notes/attachments/{id}`, then `sync-notification` is emitted, and the
response is `{"success": true}` unconditionally. -/
def sync_request_handler (st : AppState) (fs0 : Fs) (req : SyncRequest)
    (notification_id : Str) (noteFails : List Str) (attFails : List (Str × Str)) :
    HandlerOut :=
  let peer := (lookupKey req.peer_id st.peers).getD
    { id := req.peer_id, name := req.peer_name, ip := localhostIp, port := 0 }
  let st1 := { st with sync_notifications := st.sync_notifications ++
    [{ id := notification_id, from_peer := peer,
       note_title := req.note.title, status := .Pending }] }
  let sname := stagedName req.note.id
  let fs1 :=
    if sname ∈ noteFails then fs0
    else { fs0 with notes :=
            insertKey sname (renderNote req.note.title req.note.content) fs0.notes }
  let fs2 := stageAttachments req.note.id attFails req.attachments_data fs1
  { state := st1, fs := fs2, events := ["sync-notification".toList],
    ack := { success := true } }

/-- The note id that `respond_to_sync` derives by scanning the notes
directory: the `file_stem` of the first entry whose extension is `sync`,
or `""` when there is none. -/
def derivedNoteId (fs : Fs) : Str :=
  match fs.notes.find? (fun e => extension e.1 = some ("sync".toList)) with
  | some e => fileStem e.1
  | none => []

/-- Replace the status of the first notification with the given id
(the source mutates `sync_notifications[position(|n| n.id == id)]`). -/
def setStatusFirst (nid : Str) (stat : SyncStatus) :
    List SyncNotification → List SyncNotification
  | [] => []
  | n :: rest =>
    if n.id = nid then { n with status := stat } :: rest
    else n :: setStatusFirst nid stat rest

/-- The `/sync/response` message sent (fire-and-forget) to the
originating peer after a decision. -/
structure SyncResponseMsg where
  notification_id : Str
  accepted : Bool
  dest : PeerDevice
deriving DecidableEq, Repr

/-- Result of `respond_to_sync` in the success case. -/
structure RespondOut where
  state : AppState
  fs : Fs
  events : List Str
  response : SyncResponseMsg
deriving DecidableEq, Repr

/-- `respond_to_sync` (the notification resolver command).
`renameOk` is the oracle for the `fs::rename` attempt; when it fails the
source falls back to copy (`read_to_string` + `write`) then
`remove_file` (the fallback's own I/O is modelled as succeeding).

Faithful points worth noting:
* an unknown notification id returns `Err("Notification not found")`;
* a *known* id has its status overwritten unconditionally — the current
  status is never inspected;
* the note id acted on comes from `derivedNoteId`, a directory scan that
  ignores `notification_id`;
* on accept (with a nonempty derived id) `{id}.sync` is renamed to
  `{id}.md` and `notes-updated` is emitted (even if the staged file was
  absent); on reject, `{id}.sync` is removed and the whole
  `notes/attachments/{id}` directory is removed. -/
def respond_to_sync (st : AppState) (fs : Fs) (notification_id : Str)
    (accept : Bool) (renameOk : Bool) : Except Str RespondOut :=
  match st.sync_notifications.find? (fun n => n.id = notification_id) with
  | none => .error ("Notification not found".toList)
  | some notif =>
    let peer := notif.from_peer
    let note_id := derivedNoteId fs
    let newStatus : SyncStatus := if accept then .Accepted else .Rejected
    let st1 := { st with sync_notifications :=
                   setStatusFirst notification_id newStatus st.sync_notifications }
    let fsEv : Fs × List Str :=
      if accept ∧ note_id ≠ [] then
        let sync_name := note_id ++ ".sync".toList
        let note_name := note_id ++ ".md".toList
        let fs1 :=
          match lookupKey sync_name fs.notes with
          | none => fs
          | some content =>
            if renameOk then
              { fs with notes := insertKey note_name content (removeKey sync_name fs.notes) }
            else
              { fs with notes := removeKey sync_name (insertKey note_name content fs.notes) }
        (fs1, ["notes-updated".toList])
      else if note_id ≠ [] then
        let sync_name := note_id ++ ".sync".toList
        ({ notes := removeKey sync_name fs.notes
           attachments := removeKey note_id fs.attachments }, [])
      else (fs, [])
    .ok { state := st1, fs := fsEv.1, events := fsEv.2,
          response := { notification_id := notification_id, accepted := accept,
                        dest := peer } }

/-- The proposal `share_notes` builds for one note id found in the store
(the note's existing attachment files are read into `attachments_data`;
a listed attachment whose file is missing is silently dropped, as in the
source's `if attachment_path.exists()` / `if let Ok(data)` guards). -/
def buildShareReq (st : AppState) (fs : Fs) (all_notes : List Note)
    (note_id : Str) : Option SyncRequest :=
  match all_notes.find? (fun n => n.id = note_id) with
  | none => none
  | some note =>
    let attachments_data := note.attachments.filterMap fun aname =>
      (lookupKey aname (attachmentsFor fs note_id)).map fun data => (aname, data)
    some { peer_id := st.device_id, peer_name := st.device_name,
           note := note, attachments_data := attachments_data }

/-- `share_notes` (batch outbound share): resolve the peer (an unknown
peer id aborts the whole batch with `Err("Peer not found")`); otherwise
build and dispatch one proposal per note id found by `get_notes`, skipping
ids with no matching note, and return `Ok`.  The dispatched proposals are
returned as the observable effect (each is sent on its own spawned task,
fire-and-forget). -/
def share_notes (st : AppState) (fs : Fs) (note_ids : List Str)
    (peer_id : Str) : Except Str (List SyncRequest) :=
  match lookupKey peer_id st.peers with
  | none => .error ("Peer not found".toList)
  | some _ =>
    let all_notes := get_notes fs
    .ok (note_ids.filterMap (buildShareReq st fs all_notes))

/-- An mDNS browse event as consumed by the discovery loop in `main`.
A resolved service carries its raw TXT properties (key/value pairs), its
address set and its port; a removed service carries the service fullname
(mdns-sd delivers `"{instance}_{id}.{service_type}"`, e.g.
`"Alice_A._notes-sync._tcp.local."`, not the bare instance name). -/
inductive ServiceEvent where
  | resolved (props : List (Str × Str)) (addrs : List IpAddr) (port : Nat)
  | removed (fullname : Str)
  | other
deriving DecidableEq, Repr

/-- `name.split('_').last()`: the substring after the last underscore
(the whole name when it has none).  The source applies this to the
`ServiceRemoved` fullname, whose service-type suffix
`_notes-sync._tcp.local.` itself contains underscores, so the result is
`"tcp.local."` — never a peer id. -/
def lastUnderscoreSegment (name : Str) : Str :=
  (name.reverse.takeWhile (fun c => c ≠ '_')).reverse

/-- `info.get_property(key).to_string()`: mdns-sd's `get_property`
returns the `TxtProperty` for `key`, and `TxtProperty`'s `Display`
renders `"key=value"`, so the string the source obtains is the key, an
equals sign and the advertised value — not the bare value (the crate's
`get_property_val_str`, which the source does not call, would give the
bare value). -/
def propertyString (key : Str) (props : List (Str × Str)) : Option Str :=
  (lookupKey key props).map fun v => key ++ '=' :: v

/-- One iteration of the mDNS event loop in `main`: given this device's id
and the current peer map, produce the updated peer map and the emitted
events.

* `ServiceResolved`: skipped when the `id` property is absent or when the
  event carries no address; skipped when `get_property("id").to_string()`
  equals our own device id — but that string is `"id=<value>"` (see
  `propertyString`), so the intended self-suppression compare never
  matches a bare device id.  Otherwise the peer is upserted keyed by that
  same `"id=..."` string, with `"name=..."` as its display name, and
  `peers-updated` is emitted.
* `ServiceRemoved`: the id parsed from the fullname is removed;
  `peers-updated` is emitted only if something was actually removed.
* other events are ignored. -/
def handleServiceEvent (device_id : Str) (peers : List (Str × PeerDevice)) :
    ServiceEvent → List (Str × PeerDevice) × List Str
  | .resolved props addrs port =>
    match propertyString ("id".toList) props with
    | none => (peers, [])
    | some peer_id =>
      if peer_id = device_id then (peers, [])
      else
        let peer_name := (propertyString ("name".toList) props).getD ("Unknown".toList)
        match addrs.head? with
        | none => (peers, [])
        | some addr =>
          (insertKey peer_id
             { id := peer_id, name := peer_name, ip := addr, port := port } peers,
           ["peers-updated".toList])
  | .removed fullname =>
    let peer_id := lastUnderscoreSegment fullname
    let removed := (lookupKey peer_id peers).isSome
    (removeKey peer_id peers, if removed then ["peers-updated".toList] else [])
  | .other => (peers, [])

/-- Run the discovery loop over a finite prefix of the event stream. -/
def runServiceEvents (device_id : Str) (peers : List (Str × PeerDevice)) :
    List ServiceEvent → List (Str × PeerDevice)
  | [] => peers
  | ev :: rest =>
    runServiceEvents device_id (handleServiceEvent device_id peers ev).1 rest

/-- One iteration of the startup bind loop for a single port: try the
LAN-facing address from `local_ip()` when available, then IPv4 loopback,
then all interfaces (0.0.0.0) — in the last case the service address
recorded (`bound_ip`) is still loopback.  `binds` is the oracle for
whether `TcpListener::bind` succeeds on a given address/port. -/
def bindAttempt (binds : IpAddr → Nat → Bool) (lan : Option IpAddr)
    (port : Nat) : Option (IpAddr × Nat) :=
  match lan with
  | some l =>
    if binds l port then some (l, port)
    else if binds localhostIp port then some (localhostIp, port)
    else if binds anyIp port then some (localhostIp, port)
    else none
  | none =>
    if binds localhostIp port then some (localhostIp, port)
    else if binds anyIp port then some (localhostIp, port)
    else none

/-- The startup bind loop over a list of candidate ports: the first
successful `bindAttempt` wins; `none` means no candidate bound (the
source then logs "Failed to bind to any port" and returns from the
networking task, leaving the rest of the application running). -/
def bindLoop (binds : IpAddr → Nat → Bool) (lan : Option IpAddr) :
    List Nat → Option (IpAddr × Nat)
  | [] => none
  | p :: rest =>
    match bindAttempt binds lan p with
    | some r => some r
    | none => bindLoop binds lan rest

/-- `for port in 8000..8020 { ... }`: the fixed candidate port range. -/
def serverBind (binds : IpAddr → Nat → Bool) (lan : Option IpAddr) :
    Option (IpAddr × Nat) :=
  bindLoop binds lan (List.range' 8000 20)

/-- The per-port candidate addresses in the order the source tries them. -/
def attemptCandidates (lan : Option IpAddr) (port : Nat) : List (IpAddr × Nat) :=
  (lan.toList.map fun l => (l, port)) ++ [(localhostIp, port), (anyIp, port)]

/-- The advertised address for a successful bind: binding 0.0.0.0 is
advertised as loopback, anything else as itself. -/
def advertise (c : IpAddr × Nat) : IpAddr × Nat :=
  if c.1 = anyIp then (localhostIp, c.2) else c

/-! ### Association-list lemmas -/

theorem lookupKey_insertKey_self {β : Type} (k : Str) (v : β)
    (l : List (Str × β)) : lookupKey k (insertKey k v l) = some v := by
  induction l with
  | nil => simp [insertKey, lookupKey]
  | cons p rest ih =>
    by_cases h : p.1 = k
    · simp [insertKey, h, lookupKey]
    · simp [insertKey, h, lookupKey, ih]

theorem lookupKey_insertKey_ne {β : Type} {k k' : Str} (v : β)
    (l : List (Str × β)) (h : k' ≠ k) :
    lookupKey k (insertKey k' v l) = lookupKey k l := by
  induction l with
  | nil => simp [insertKey, lookupKey, h]
  | cons p rest ih =>
    by_cases hp : p.1 = k'
    · simp [insertKey, hp, lookupKey, h, ih]
    · simp [insertKey, hp, lookupKey, ih]

theorem lookupKey_eq_none_of_not_mem {β : Type} {k : Str}
    {l : List (Str × β)} (h : k ∉ l.map Prod.fst) : lookupKey k l = none := by
  induction l with
  | nil => rfl
  | cons p rest ih =>
    simp only [List.map_cons, List.mem_cons] at h
    push_neg at h
    simp [lookupKey, Ne.symm h.1, ih h.2]

theorem lookupKey_removeKey_self {β : Type} {k : Str} {l : List (Str × β)}
    (h : (l.map Prod.fst).Nodup) : lookupKey k (removeKey k l) = none := by
  induction l with
  | nil => rfl
  | cons p rest ih =>
    simp only [List.map_cons, List.nodup_cons] at h
    by_cases hp : p.1 = k
    · subst hp
      simpa [removeKey] using lookupKey_eq_none_of_not_mem h.1
    · simp [removeKey, hp, lookupKey, ih h.2]

theorem lookupKey_removeKey_ne {β : Type} {k k' : Str} (l : List (Str × β))
    (h : k' ≠ k) : lookupKey k (removeKey k' l) = lookupKey k l := by
  induction l with
  | nil => rfl
  | cons p rest ih =>
    by_cases hp : p.1 = k'
    · simp [removeKey, hp, lookupKey, h]
    · simp [removeKey, hp, lookupKey, ih]

theorem mapFst_insertKey_of_mem {β : Type} {k : Str} (v : β)
    {l : List (Str × β)} (h : k ∈ l.map Prod.fst) :
    (insertKey k v l).map Prod.fst = l.map Prod.fst := by
  induction l with
  | nil => simp at h
  | cons p rest ih =>
    by_cases hp : p.1 = k
    · simp [insertKey, hp]
    · simp only [List.map_cons, List.mem_cons] at h
      rcases h with h | h
      · exact absurd h.symm hp
      · simp [insertKey, hp, ih h]

theorem mapFst_insertKey_of_not_mem {β : Type} {k : Str} (v : β)
    {l : List (Str × β)} (h : k ∉ l.map Prod.fst) :
    (insertKey k v l).map Prod.fst = l.map Prod.fst ++ [k] := by
  induction l with
  | nil => simp [insertKey]
  | cons p rest ih =>
    simp only [List.map_cons, List.mem_cons] at h
    push_neg at h
    simp [insertKey, Ne.symm h.1, ih h.2]

theorem mem_mapFst_insertKey {β : Type} (k : Str) (v : β)
    (l : List (Str × β)) : k ∈ (insertKey k v l).map Prod.fst := by
  induction l with
  | nil =>
    simp only [insertKey, List.map_cons, List.map_nil]
    exact List.mem_cons_self _ _
  | cons p rest ih =>
    by_cases hp : p.1 = k
    · simp only [insertKey, if_pos hp, List.map_cons]
      exact List.mem_cons_self _ _
    · simp only [insertKey, if_neg hp, List.map_cons]
      exact List.mem_cons_of_mem _ ih

theorem mem_of_mem_insertKey {β : Type} {pr : Str × β} {k : Str} {v : β}
    {l : List (Str × β)} : pr ∈ insertKey k v l → pr = (k, v) ∨ pr ∈ l := by
  induction l with
  | nil =>
    intro h
    simp only [insertKey, List.mem_singleton] at h
    exact .inl h
  | cons p rest ih =>
    intro h
    by_cases hp : p.1 = k
    · simp only [insertKey, if_pos hp, List.mem_cons] at h
      rcases h with h | h
      · exact .inl h
      · exact .inr (List.mem_cons_of_mem _ h)
    · simp only [insertKey, if_neg hp, List.mem_cons] at h
      rcases h with h | h
      · exact .inr (h ▸ List.mem_cons_self _ _)
      · rcases ih h with h' | h'
        · exact .inl h'
        · exact .inr (List.mem_cons_of_mem _ h')

theorem mem_of_mem_removeKey {β : Type} {pr : Str × β} {k : Str}
    {l : List (Str × β)} : pr ∈ removeKey k l → pr ∈ l := by
  induction l with
  | nil => exact fun h => h
  | cons p rest ih =>
    intro h
    by_cases hp : p.1 = k
    · simp only [removeKey, if_pos hp] at h
      exact List.mem_cons_of_mem _ h
    · simp only [removeKey, if_neg hp, List.mem_cons] at h
      rcases h with h | h
      · exact h ▸ List.mem_cons_self _ _
      · exact List.mem_cons_of_mem _ (ih h)

/-! ### File-name lemmas -/

theorem takeWhile_append_dot (l1 l2 : List Char) (h : ∀ c ∈ l1, c ≠ '.') :
    (l1 ++ '.' :: l2).takeWhile (fun c => c ≠ '.') = l1 := by
  induction l1 with
  | nil => simp [List.takeWhile_cons]
  | cons c rest ih =>
    have hc : c ≠ '.' := h c (List.mem_cons_self _ _)
    simp only [List.cons_append, List.takeWhile_cons]
    rw [if_pos (decide_eq_true hc), ih fun x hx => h x (List.mem_cons_of_mem _ hx)]

theorem dropWhile_append_dot (l1 l2 : List Char) (h : ∀ c ∈ l1, c ≠ '.') :
    (l1 ++ '.' :: l2).dropWhile (fun c => c ≠ '.') = '.' :: l2 := by
  induction l1 with
  | nil => simp [List.dropWhile_cons]
  | cons c rest ih =>
    have hc : c ≠ '.' := h c (List.mem_cons_self _ _)
    simp only [List.cons_append, List.dropWhile_cons]
    rw [if_pos (decide_eq_true hc)]
    exact ih fun x hx => h x (List.mem_cons_of_mem _ hx)

/-- A name of the form `x ++ "." ++ e` with a dot-free `e` has extension
`e` and stem `x`. -/
theorem extension_fileStem_append (x e : List Char) (hne : '.' ∉ e) :
    extension (x ++ '.' :: e) = some e ∧ fileStem (x ++ '.' :: e) = x := by
  have hrev : (x ++ '.' :: e).reverse = e.reverse ++ '.' :: x.reverse := by
    simp [List.reverse_append]
  have hdotfree : ∀ c ∈ e.reverse, c ≠ '.' := by
    intro c hc hceq
    exact hne (hceq ▸ List.mem_reverse.mp hc)
  have hmem : '.' ∈ (x ++ '.' :: e).reverse := by
    rw [hrev]
    exact List.mem_append_right _ (List.mem_cons_self _ _)
  constructor
  · simp only [extension, hrev, if_pos (hrev ▸ hmem)]
    rw [takeWhile_append_dot _ _ hdotfree, List.reverse_reverse]
  · simp only [fileStem, hrev, if_pos (hrev ▸ hmem)]
    rw [dropWhile_append_dot _ _ hdotfree]
    simp

/-! ### Resolver, staging and listing lemmas -/

theorem find?_setStatusFirst (nid : Str) (stat : SyncStatus)
    (l : List SyncNotification) :
    (setStatusFirst nid stat l).find? (fun n => n.id = nid)
      = (l.find? (fun n => n.id = nid)).map (fun n => { n with status := stat }) := by
  induction l with
  | nil => rfl
  | cons n rest ih =>
    by_cases hn : n.id = nid
    · simp [setStatusFirst, hn, List.find?_cons_of_pos]
    · rw [setStatusFirst, if_neg hn]
      rw [List.find?_cons_of_neg _ (by simpa using hn),
          List.find?_cons_of_neg _ (by simpa using hn), ih]

theorem stageAttachments_notes (note_id : Str) (af : List (Str × Str))
    (l : List (Str × List Nat)) (fs : Fs) :
    (stageAttachments note_id af l fs).notes = fs.notes := by
  induction l generalizing fs with
  | nil => rfl
  | cons fd rest ih =>
    rw [stageAttachments, ih]
    by_cases hf : (note_id, fd.1) ∈ af
    · rw [if_pos hf]
    · rw [if_neg hf]
      rfl

theorem attachmentsFor_writeAttachment_self (fs : Fs) (note_id a : Str)
    (b : List Nat) :
    attachmentsFor (writeAttachment fs note_id a b) note_id
      = insertKey a b (attachmentsFor fs note_id) := by
  simp [writeAttachment, attachmentsFor, lookupKey_insertKey_self]

theorem lookup_stageAttachments_not_mem (note_id : Str)
    (l : List (Str × List Nat)) (fs : Fs) {an : Str} :
    an ∉ l.map Prod.fst →
    lookupKey an (attachmentsFor (stageAttachments note_id [] l fs) note_id)
      = lookupKey an (attachmentsFor fs note_id) := by
  induction l generalizing fs with
  | nil => exact fun _ => rfl
  | cons fd rest ih =>
    intro h
    simp only [List.map_cons, List.mem_cons] at h
    push_neg at h
    rw [stageAttachments, if_neg (List.not_mem_nil _)]
    rw [ih _ h.2, attachmentsFor_writeAttachment_self,
        lookupKey_insertKey_ne _ _ (Ne.symm h.1)]

theorem lookup_stageAttachments_mem (note_id : Str)
    (l : List (Str × List Nat)) (fs : Fs) {an : Str} {bs : List Nat} :
    (l.map Prod.fst).Nodup → (an, bs) ∈ l →
    lookupKey an (attachmentsFor (stageAttachments note_id [] l fs) note_id)
      = some bs := by
  induction l generalizing fs with
  | nil =>
    intro _ h
    simp at h
  | cons fd rest ih =>
    intro hnd h
    simp only [List.map_cons, List.nodup_cons] at hnd
    rw [stageAttachments, if_neg (List.not_mem_nil _)]
    rcases List.mem_cons.mp h with h | h
    · have han : an = fd.1 := by rw [← h]
      subst han
      rw [lookup_stageAttachments_not_mem _ _ _ hnd.1,
          attachmentsFor_writeAttachment_self, lookupKey_insertKey_self]
      rw [← h]
    · exact ih _ hnd.2 h

/-- The record id that a directory entry contributes to `get_notes`. -/
def mdIdOf (name : Str) : Option Str :=
  if extension name = some ("md".toList) then some (fileStem name) else none

theorem get_notes_ids (fs : Fs) :
    (get_notes fs).map Note.id = (fs.notes.map Prod.fst).filterMap mdIdOf := by
  rw [get_notes, List.map_filterMap, List.filterMap_map]
  congr 1
  funext e
  by_cases he : extension e.1 = some ("md".toList)
  · simp [he, mdIdOf, Function.comp]
  · simp [he, mdIdOf, Function.comp]

/-! ### Bind-loop and discovery lemmas -/

theorem bindAttempt_eq_find (binds : IpAddr → Nat → Bool) {lan : Option IpAddr}
    (port : Nat) (hlan : lan ≠ some anyIp) :
    bindAttempt binds lan port
      = ((attemptCandidates lan port).find? (fun c => binds c.1 c.2)).map advertise := by
  have hlo : localhostIp ≠ anyIp := by
    simp [localhostIp, anyIp]
  cases lan with
  | none =>
    by_cases h1 : binds localhostIp port
    · simp [bindAttempt, attemptCandidates, advertise, h1, hlo]
    · by_cases h2 : binds anyIp port
      · simp [bindAttempt, attemptCandidates, advertise, h1, h2]
      · simp [bindAttempt, attemptCandidates, advertise, h1, h2]
  | some l =>
    have hl : l ≠ anyIp := fun h => hlan (by rw [h])
    by_cases h0 : binds l port
    · simp [bindAttempt, attemptCandidates, advertise, h0, hl]
    · by_cases h1 : binds localhostIp port
      · simp [bindAttempt, attemptCandidates, advertise, h0, h1, hlo]
      · by_cases h2 : binds anyIp port
        · simp [bindAttempt, attemptCandidates, advertise, h0, h1, h2]
        · simp [bindAttempt, attemptCandidates, advertise, h0, h1, h2]

theorem bindLoop_eq_find (binds : IpAddr → Nat → Bool) {lan : Option IpAddr}
    (hlan : lan ≠ some anyIp) (ports : List Nat) :
    bindLoop binds lan ports
      = ((ports.flatMap (attemptCandidates lan)).find? (fun c => binds c.1 c.2)).map
          advertise := by
  induction ports with
  | nil => rfl
  | cons p rest ih =>
    rw [bindLoop, bindAttempt_eq_find binds p hlan, ih]
    rw [List.flatMap_cons, List.find?_append]
    cases h : (attemptCandidates lan p).find? (fun c => binds c.1 c.2) with
    | none => simp [h]
    | some c => simp [h]

/-! ### Observers and concrete fixtures -/

/-- The disk state of a successful `respond_to_sync` call, `none` when it
returned an error. -/
def fsAfter (r : Except Str RespondOut) : Option Fs :=
  match r with
  | .ok o => some o.fs
  | .error _ => none

/-- The stored status of the notification with the given id after a
`respond_to_sync` call (`none` when the call failed or no notification
with that id exists). -/
def respondedStatus (r : Except Str RespondOut) (nid : Str) : Option SyncStatus :=
  match r with
  | .error _ => none
  | .ok o =>
    (o.state.sync_notifications.find? (fun n => n.id = nid)).map
      SyncNotification.status

/-- Fixture: a freshly started device `A` with empty registry. -/
def exState0 : AppState :=
  { device_id := "A".toList, device_name := "Alice".toList, peers := [],
    sync_notifications := [] }

/-- Fixture: an empty notes directory. -/
def exFs0 : Fs := { notes := [], attachments := [] }

/-- Fixture: an inbound proposal from device `B` for record `n1` with
attachments `a` and `b`. -/
def exReq : SyncRequest :=
  { peer_id := "B".toList, peer_name := "Bob".toList,
    note := { id := "n1".toList, title := "T".toList, content := "body".toList,
              attachments := ["a".toList, "b".toList] },
    attachments_data := [("a".toList, [1, 2]), ("b".toList, [3])] }

/-- Fixture: the state of device `A` after receiving `exReq` (notification
id `nid1`, no write failures). -/
def exHandlerOut : HandlerOut :=
  sync_request_handler exState0 exFs0 exReq ("nid1".toList) [] []

/-- Fixture: accepting notification `nid1` on the state above. -/
def exAccept : Except Str RespondOut :=
  respond_to_sync exHandlerOut.state exHandlerOut.fs ("nid1".toList) true true

/-- Placeholder output used only as the default of `okOr`. -/
def dummyRespondOut : RespondOut :=
  { state := exState0, fs := exFs0, events := [],
    response := { notification_id := [], accepted := false,
                  dest := { id := [], name := [], ip := localhostIp, port := 0 } } }

/-- Extract the success value of a `respond_to_sync` result. -/
def okOr (r : Except Str RespondOut) : RespondOut :=
  match r with
  | .ok o => o
  | .error _ => dummyRespondOut

/-- Fixture: a second resolution attempt on the already-accepted `nid1`. -/
def exReResolve : Except Str RespondOut :=
  respond_to_sync (okOr exAccept).state (okOr exAccept).fs ("nid1".toList) false true

/-! ### Claim theorems -/

/-- C1 (amended): every `SyncNotification` is created with status
`Pending`; `respond_to_sync` on an unknown notification id fails with
"Notification not found" (and, returning an error, changes nothing); but a
resolution attempt on any *known* id succeeds and overwrites the stored
status with the new decision regardless of the current status — a second
resolution of the same id is not rejected and can change
`Accepted`/`Rejected` (last decision wins). -/
theorem c1_notification_lifecycle (st : AppState) (fs : Fs) (req : SyncRequest)
    (nid : Str) (nf : List Str) (af : List (Str × Str)) (notification_id : Str)
    (accept renameOk : Bool) :
    (((sync_request_handler st fs req nid nf af).state.sync_notifications.getLast?).map
        SyncNotification.status = some .Pending)
    ∧ (st.sync_notifications.find? (fun n => n.id = notification_id) = none →
        respond_to_sync st fs notification_id accept renameOk
          = .error ("Notification not found".toList))
    ∧ ((st.sync_notifications.find? (fun n => n.id = notification_id)).isSome →
        respondedStatus (respond_to_sync st fs notification_id accept renameOk)
            notification_id
          = some (if accept then .Accepted else .Rejected)) := by
  refine ⟨?_, ?_, ?_⟩
  · show ((st.sync_notifications ++ [_]).getLast?).map SyncNotification.status
      = some .Pending
    rw [List.getLast?_concat]
    rfl
  · intro h
    simp only [respond_to_sync, h]
  · intro h
    obtain ⟨n, hn⟩ := Option.isSome_iff_exists.mp h
    simp only [respond_to_sync, hn, respondedStatus]
    rw [find?_setStatusFirst, hn]
    rfl

/-- C1 witness: on an empty registry, resolving the unknown id `ghost`
fails with "Notification not found"; on a registry whose only
notification `nid1` is already `Accepted`, a reject call still succeeds
and flips the stored status to `Rejected`. -/
theorem c1_notification_lifecycle_witness :
    respond_to_sync exState0 exFs0 ("ghost".toList) true true
        = .error ("Notification not found".toList)
    ∧ respondedStatus
        (respond_to_sync (okOr exAccept).state (okOr exAccept).fs
          ("nid1".toList) false true) ("nid1".toList) = some .Rejected := by
  constructor
  · exact (c1_notification_lifecycle exState0 exFs0 exReq ("x".toList) [] []
      ("ghost".toList) true true).2.1 (by decide)
  · exact (c1_notification_lifecycle (okOr exAccept).state (okOr exAccept).fs exReq
      ("x".toList) [] [] ("nid1".toList) false true).2.2 (by decide)

/-- C1 counterexample: the claim says a second resolution attempt on the
same notification id fails and does not change the stored status.  In the
reachable run below (proposal received, then accepted), notification
`nid1` is `Accepted` after the first resolution, yet a second
`respond_to_sync` on the same id succeeds (returns `Ok`, not an error)
and changes the stored status to `Rejected`. -/
theorem c1_second_resolution_succeeds :
    respondedStatus exAccept ("nid1".toList) = some .Accepted
    ∧ respondedStatus exReResolve ("nid1".toList) = some .Rejected := by
  decide

/-- C2: for every inbound proposal, every registry state, every disk
state and every pattern of disk-write failures (`nf`, `af`), the
`/sync/request` handler acknowledges `{"success": true}`, and the registry
gains exactly one `SyncNotification` with the fresh id `nid`, the sender
peer (looked up, or synthesized with loopback/port 0), the proposed note's
title and status `Pending`.  The appended notification does not depend on
the failure oracles: the registry insertion happens before, and
independently of, every staging disk write, and neither a failed staged
record write nor failed attachment writes change the acknowledgment. -/
theorem c2_inbound_ack_and_pending_registration (st : AppState) (fs : Fs)
    (req : SyncRequest) (nid : Str) (nf : List Str) (af : List (Str × Str)) :
    (sync_request_handler st fs req nid nf af).ack = { success := true }
    ∧ (sync_request_handler st fs req nid nf af).state.sync_notifications
        = st.sync_notifications ++
          [{ id := nid,
             from_peer := (lookupKey req.peer_id st.peers).getD
               { id := req.peer_id, name := req.peer_name, ip := localhostIp,
                 port := 0 },
             note_title := req.note.title, status := .Pending }] := by
  exact ⟨rfl, rfl⟩

/-- C3: the decision in `respond_to_sync` acts on the file stem of the
first directory entry with the provisional `sync` extension
(`derivedNoteId`), not on any record id stored on the notification: with
any two known notification ids, the resulting disk state is the same
whichever id is passed, also when several distinct staged records are
pending. -/
theorem c3_decision_targets_first_scanned_sync (st : AppState) (fs : Fs)
    (nid1 nid2 : Str) (accept renameOk : Bool) (e : Str × Str)
    (h1 : (st.sync_notifications.find? (fun n => n.id = nid1)).isSome)
    (h2 : (st.sync_notifications.find? (fun n => n.id = nid2)).isSome)
    (he : fs.notes.find? (fun en => extension en.1 = some ("sync".toList)) = some e) :
    fsAfter (respond_to_sync st fs nid1 accept renameOk)
      = fsAfter (respond_to_sync st fs nid2 accept renameOk)
    ∧ derivedNoteId fs = fileStem e.1 := by
  obtain ⟨n1, hn1⟩ := Option.isSome_iff_exists.mp h1
  obtain ⟨n2, hn2⟩ := Option.isSome_iff_exists.mp h2
  constructor
  · simp only [respond_to_sync, hn1, hn2, fsAfter]
  · simp only [derivedNoteId, he]

/-- Fixture: the sender `B` as a `PeerDevice`. -/
def peerB : PeerDevice :=
  { id := "B".toList, name := "Bob".toList, ip := localhostIp, port := 0 }

/-- Fixture: two pending notifications `nida`, `nidb`. -/
def exStateTwo : AppState :=
  { device_id := "A".toList, device_name := "Alice".toList, peers := [],
    sync_notifications :=
      [{ id := "nida".toList, from_peer := peerB, note_title := "T1".toList,
         status := .Pending },
       { id := "nidb".toList, from_peer := peerB, note_title := "T2".toList,
         status := .Pending }] }

/-- Fixture: two distinct staged records `x` and `y` awaiting decision. -/
def exFsTwo : Fs :=
  { notes := [("x.md.sync".toList, "c1".toList), ("y.md.sync".toList, "c2".toList)],
    attachments := [] }

/-- C3 witness: with two staged records and two pending notifications,
accepting via either notification id produces the same disk state, and the
record acted on is the first scanned `.sync` entry (`x.md.sync`). -/
theorem c3_decision_targets_first_scanned_sync_witness :
    fsAfter (respond_to_sync exStateTwo exFsTwo ("nida".toList) true true)
      = fsAfter (respond_to_sync exStateTwo exFsTwo ("nidb".toList) true true)
    ∧ derivedNoteId exFsTwo = fileStem ("x.md.sync".toList) := by
  exact c3_decision_targets_first_scanned_sync exStateTwo exFsTwo
    ("nida".toList) ("nidb".toList) true true
    ("x.md.sync".toList, "c1".toList) (by decide) (by decide) (by decide)

/-- C4 (code bug, evaluated at the failing input): accepting the sole
staged proposal for record `n1` (staged at `n1.md.sync`, attachments `a`,
`b` staged under `attachments/n1`) renames the staged file to `n1.md.md`,
so afterwards: the committed listing contains exactly one record whose id
is `n1.md` — not `n1` — the staged copy is gone, the promoted record's
attachment directory (`attachments/n1.md`) is empty, so reading
attachments `a`/`b` for it fails, while the staged attachment bytes sit
orphaned under `attachments/n1`; a `notes-updated` event is emitted.  The
claim's promised round trip (committed set contains R; `readAttachment`
succeeds for `a` and `b`) does not hold. -/
theorem c4_accept_promotes_to_wrong_id :
    ((fsAfter exAccept).map fun f => (get_notes f).map Note.id)
        = some [("n1.md".toList)]
    ∧ ((fsAfter exAccept).map fun f => lookupKey (stagedName ("n1".toList)) f.notes)
        = some none
    ∧ ((fsAfter exAccept).map fun f =>
          (attachmentsFor f ("n1.md".toList)).map Prod.fst) = some []
    ∧ ((fsAfter exAccept).map fun f =>
          (attachmentsFor f ("n1".toList)).map Prod.fst)
        = some ["a".toList, "b".toList]
    ∧ (okOr exAccept).events = ["notes-updated".toList] := by
  decide

/-- C5: rejecting a decision with derived note id `s` (the stem of the
first scanned `.sync` entry, nonempty) removes the staged `{s}.sync` file
and the *entire* attachments directory for `s` — so any pre-existing
committed attachment files for that id are deleted too — while the
committed record file `{s}.md` is left exactly as it was. -/
theorem c5_reject_wipes_attachment_dir (st : AppState) (fs : Fs) (nid : Str)
    (renameOk : Bool) (e : Str × Str)
    (hn : (st.sync_notifications.find? (fun n => n.id = nid)).isSome)
    (he : fs.notes.find? (fun en => extension en.1 = some ("sync".toList)) = some e)
    (hs : fileStem e.1 ≠ [])
    (hndn : (fs.notes.map Prod.fst).Nodup)
    (hnda : (fs.attachments.map Prod.fst).Nodup) :
    ((fsAfter (respond_to_sync st fs nid false renameOk)).map fun f =>
        lookupKey (fileStem e.1 ++ ".sync".toList) f.notes) = some none
    ∧ ((fsAfter (respond_to_sync st fs nid false renameOk)).map fun f =>
        lookupKey (fileStem e.1) f.attachments) = some none
    ∧ ((fsAfter (respond_to_sync st fs nid false renameOk)).map fun f =>
        lookupKey (fileStem e.1 ++ ".md".toList) f.notes)
      = some (lookupKey (fileStem e.1 ++ ".md".toList) fs.notes) := by
  obtain ⟨n, hn'⟩ := Option.isSome_iff_exists.mp hn
  have hd : derivedNoteId fs = fileStem e.1 := by
    simp only [derivedNoteId, he]
  simp only [respond_to_sync, hn', hd, Bool.false_eq_true, false_and, if_false,
    ite_false, ne_eq, fsAfter, Option.map_some']
  rw [if_pos hs]
  refine ⟨?_, ?_, ?_⟩
  · rw [lookupKey_removeKey_self hndn]
  · rw [lookupKey_removeKey_self hnda]
  · have hne : fileStem e.1 ++ ".sync".toList ≠ fileStem e.1 ++ ".md".toList := by
      intro hcon
      have h2 := List.append_cancel_left hcon
      simp at h2
    rw [lookupKey_removeKey_ne _ hne]

/-- Fixture: one pending notification `nid`. -/
def exStateOne : AppState :=
  { device_id := "A".toList, device_name := "Alice".toList, peers := [],
    sync_notifications :=
      [{ id := "nid".toList, from_peer := peerB, note_title := "T".toList,
         status := .Pending }] }

/-- Fixture: a staged record `x.sync` next to a committed record `x.md`
whose attachments directory already holds a committed file `old.png`. -/
def exFsReject : Fs :=
  { notes := [("x.sync".toList, "S".toList), ("x.md".toList, "M".toList)],
    attachments := [("x".toList, [("old.png".toList, [7, 8])])] }

/-- C5 witness: rejecting on `exFsReject` deletes `x.sync` and the whole
attachments directory of `x` (including the pre-existing committed
`old.png`), while the committed `x.md` file keeps its content. -/
theorem c5_reject_wipes_attachment_dir_witness :
    ((fsAfter (respond_to_sync exStateOne exFsReject ("nid".toList) false true)).map
        fun f => lookupKey (fileStem ("x.sync".toList) ++ ".sync".toList) f.notes)
      = some none
    ∧ ((fsAfter (respond_to_sync exStateOne exFsReject ("nid".toList) false true)).map
        fun f => lookupKey (fileStem ("x.sync".toList)) f.attachments) = some none
    ∧ ((fsAfter (respond_to_sync exStateOne exFsReject ("nid".toList) false true)).map
        fun f => lookupKey (fileStem ("x.sync".toList) ++ ".md".toList) f.notes)
      = some (lookupKey (fileStem ("x.sync".toList) ++ ".md".toList) exFsReject.notes) := by
  exact c5_reject_wipes_attachment_dir exStateOne exFsReject ("nid".toList) true
    ("x.sync".toList, "S".toList) (by decide) (by decide) (by decide) (by decide)
    (by decide)

/-- C6: `share_notes` with a target peer id absent from the registry
aborts the whole batch with "Peer not found" (no proposal is built); with
a known peer it returns `Ok` for every list of record ids, dispatching
exactly one proposal per id found by `get_notes` in order — an id with no
matching record is skipped and processing continues, and the batch as a
whole still succeeds. -/
theorem c6_share_notes_batch (st : AppState) (fs : Fs) (note_ids : List Str)
    (peer_id : Str) :
    (lookupKey peer_id st.peers = none →
      share_notes st fs note_ids peer_id = .error ("Peer not found".toList))
    ∧ (∀ p, lookupKey peer_id st.peers = some p →
      share_notes st fs note_ids peer_id
        = .ok (note_ids.filterMap (buildShareReq st fs (get_notes fs)))) := by
  constructor
  · intro h
    simp only [share_notes, h]
  · intro p h
    simp only [share_notes, h]

/-- Fixture: device `A` knowing peer `B`, with one committed note `n1`. -/
def exStateWithPeer : AppState :=
  { device_id := "A".toList, device_name := "Alice".toList,
    peers := [("B".toList, peerB)], sync_notifications := [] }

/-- Fixture: a notes directory holding the single committed note `n1`. -/
def exFsOneNote : Fs :=
  { notes := [("n1.md".toList, "c".toList)], attachments := [] }

/-- C6 witness: sharing to the unknown peer `Q` errors; sharing
`[n1, zz]` to the known peer `B` succeeds, skipping the missing id `zz`. -/
theorem c6_share_notes_batch_witness :
    share_notes exStateWithPeer exFsOneNote ["n1".toList, "zz".toList] ("Q".toList)
      = .error ("Peer not found".toList)
    ∧ share_notes exStateWithPeer exFsOneNote ["n1".toList, "zz".toList] ("B".toList)
      = .ok ((["n1".toList, "zz".toList]).filterMap
          (buildShareReq exStateWithPeer exFsOneNote (get_notes exFsOneNote))) := by
  constructor
  · exact (c6_share_notes_batch exStateWithPeer exFsOneNote
      ["n1".toList, "zz".toList] ("Q".toList)).1 (by decide)
  · exact (c6_share_notes_batch exStateWithPeer exFsOneNote
      ["n1".toList, "zz".toList] ("B".toList)).2 peerB (by decide)

/-- C7 (code bug, evaluated at the failing input): a resolution event
for this device's own advertisement is NOT skipped.  The source compares
`get_property("id").to_string()` against the bare device id, but that
string is rendered by mdns-sd's `TxtProperty` Display as `"id=<value>"`,
so the self-suppression check never matches: on receiving its own
advertisement (properties `id=A`, `name=Alice`), the device upserts
itself into the peer map under the mangled key `id=A` with the mangled
display name `name=Alice` and emits `peers-updated`, and `get_peers`
then lists the local device.  The claim says the event is skipped, the
peer map is not modified, no peers-changed event is emitted and the
local device never appears in `get_peers`. -/
theorem c7_self_event_not_suppressed :
    handleServiceEvent ("A".toList) []
        (.resolved [("id".toList, "A".toList), ("name".toList, "Alice".toList)]
          [localhostIp] 8003)
      = ([("id=A".toList,
           { id := "id=A".toList, name := "name=Alice".toList,
             ip := localhostIp, port := 8003 })],
         ["peers-updated".toList])
    ∧ get_peers
        { device_id := "A".toList, device_name := "Alice".toList,
          peers := runServiceEvents ("A".toList) []
            [.resolved [("id".toList, "A".toList), ("name".toList, "Alice".toList)]
              [localhostIp] 8003],
          sync_notifications := [] }
      = [{ id := "id=A".toList, name := "name=Alice".toList,
           ip := localhostIp, port := 8003 }] := by
  decide

/-- C8: two inbound proposals carrying the same record id write to the
same provisional path (`{id}.md.sync`) and the same attachment directory,
last-writer-wins: after the second handler call the set of note-file names
is unchanged (no second staged copy is created), the staged body holds the
second proposal's rendering, and each attachment of the second proposal
holds the second proposal's bytes. -/
theorem c8_same_id_overwrites_staged (st : AppState) (fs : Fs)
    (req1 req2 : SyncRequest) (nid1 nid2 : Str)
    (hid : req2.note.id = req1.note.id)
    (hnd : (req2.attachments_data.map Prod.fst).Nodup) :
    ((sync_request_handler (sync_request_handler st fs req1 nid1 [] []).state
        (sync_request_handler st fs req1 nid1 [] []).fs req2 nid2 [] []).fs.notes.map
          Prod.fst)
      = ((sync_request_handler st fs req1 nid1 [] []).fs.notes.map Prod.fst)
    ∧ lookupKey (stagedName req1.note.id)
        (sync_request_handler (sync_request_handler st fs req1 nid1 [] []).state
          (sync_request_handler st fs req1 nid1 [] []).fs req2 nid2 [] []).fs.notes
      = some (renderNote req2.note.title req2.note.content)
    ∧ ∀ an bs, (an, bs) ∈ req2.attachments_data →
        lookupKey an
          (attachmentsFor
            (sync_request_handler (sync_request_handler st fs req1 nid1 [] []).state
              (sync_request_handler st fs req1 nid1 [] []).fs req2 nid2 [] []).fs
            req1.note.id)
          = some bs := by
  have hnotes : ∀ (st' : AppState) (r : SyncRequest) (nid : Str) (fs0 : Fs),
      (sync_request_handler st' fs0 r nid [] []).fs.notes
        = insertKey (stagedName r.note.id)
            (renderNote r.note.title r.note.content) fs0.notes := by
    intro st' r nid fs0
    show (stageAttachments r.note.id [] r.attachments_data _).notes = _
    rw [stageAttachments_notes, if_neg (List.not_mem_nil _)]
  refine ⟨?_, ?_, ?_⟩
  · rw [hnotes, hnotes, hid]
    exact mapFst_insertKey_of_mem _ (mem_mapFst_insertKey _ _ _)
  · rw [hnotes, hid]
    exact lookupKey_insertKey_self _ _ _
  · intro an bs hab
    rw [← hid]
    show lookupKey an
      (attachmentsFor (stageAttachments req2.note.id [] req2.attachments_data _)
        req2.note.id) = some bs
    exact lookup_stageAttachments_mem _ _ _ hnd hab

/-- Fixture: a second proposal for the same record id `n1` with different
content and attachment bytes. -/
def exReq2 : SyncRequest :=
  { peer_id := "B".toList, peer_name := "Bob".toList,
    note := { id := "n1".toList, title := "T2".toList, content := "body2".toList,
              attachments := ["a".toList] },
    attachments_data := [("a".toList, [9])] }

/-- C8 witness: receiving `exReq` then `exReq2` (same record id `n1`)
leaves one staged file whose body is `exReq2`'s rendering, and attachment
`a` holds `exReq2`'s bytes. -/
theorem c8_same_id_overwrites_staged_witness :
    ((sync_request_handler (sync_request_handler exState0 exFs0 exReq ("nid1".toList) [] []).state
        (sync_request_handler exState0 exFs0 exReq ("nid1".toList) [] []).fs exReq2
        ("nid2".toList) [] []).fs.notes.map Prod.fst)
      = ((sync_request_handler exState0 exFs0 exReq ("nid1".toList) [] []).fs.notes.map
          Prod.fst)
    ∧ lookupKey (stagedName ("n1".toList))
        (sync_request_handler (sync_request_handler exState0 exFs0 exReq ("nid1".toList) [] []).state
          (sync_request_handler exState0 exFs0 exReq ("nid1".toList) [] []).fs exReq2
          ("nid2".toList) [] []).fs.notes
      = some (renderNote ("T2".toList) ("body2".toList))
    ∧ lookupKey ("a".toList)
        (attachmentsFor
          (sync_request_handler (sync_request_handler exState0 exFs0 exReq ("nid1".toList) [] []).state
            (sync_request_handler exState0 exFs0 exReq ("nid1".toList) [] []).fs exReq2
            ("nid2".toList) [] []).fs ("n1".toList))
      = some [9] := by
  have h := c8_same_id_overwrites_staged exState0 exFs0 exReq exReq2
    ("nid1".toList) ("nid2".toList) rfl (by decide)
  exact ⟨h.1, h.2.1, h.2.2 ("a".toList) [9] (by decide)⟩

/-- C9: staging an inbound proposal is invisible to the committed record
listing: the record ids returned by `get_notes` are unchanged by the
`/sync/request` handler (for every write-failure pattern), because the
staged body is written under the provisional `sync` extension while
`get_notes` lists only files whose extension is `md`. -/
theorem c9_staged_never_listed (st : AppState) (fs : Fs) (req : SyncRequest)
    (nid : Str) (nf : List Str) (af : List (Str × Str)) :
    ((get_notes ((sync_request_handler st fs req nid nf af).fs)).map Note.id)
      = (get_notes fs).map Note.id
    ∧ extension (stagedName req.note.id) = some ("sync".toList) := by
  have hsplit : stagedName req.note.id
      = get_note_path req.note.id ++ '.' :: "sync".toList := rfl
  have hext : extension (stagedName req.note.id) = some ("sync".toList) := by
    rw [hsplit]
    exact (extension_fileStem_append _ _ (by decide)).1
  refine ⟨?_, hext⟩
  by_cases hmem : stagedName req.note.id ∈ nf
  · have hnotes : (sync_request_handler st fs req nid nf af).fs.notes = fs.notes := by
      show (stageAttachments req.note.id af req.attachments_data _).notes = _
      rw [stageAttachments_notes, if_pos hmem]
    rw [get_notes_ids, get_notes_ids, hnotes]
  · have hnotes : (sync_request_handler st fs req nid nf af).fs.notes
        = insertKey (stagedName req.note.id)
            (renderNote req.note.title req.note.content) fs.notes := by
      show (stageAttachments req.note.id af req.attachments_data _).notes = _
      rw [stageAttachments_notes, if_neg hmem]
    rw [get_notes_ids, get_notes_ids, hnotes]
    have hnone : mdIdOf (stagedName req.note.id) = none := by
      simp only [mdIdOf, hext, Option.some.injEq]
      rw [if_neg]
      intro hcon
      exact absurd hcon (by decide)
    by_cases hin : stagedName req.note.id ∈ fs.notes.map Prod.fst
    · rw [mapFst_insertKey_of_mem _ hin]
    · rw [mapFst_insertKey_of_not_mem _ hin, List.filterMap_append]
      simp [List.filterMap_cons, hnone]

/-- C10: the startup bind loop follows exactly the fixed fallback order —
for each port of `8000..8020` in order: the LAN-facing address (when
`local_ip()` yields one), then IPv4 loopback, then all interfaces, the
last advertised as loopback — taking the first candidate that binds; and
it yields `none` (discovery/sync disabled, a non-fatal logged condition)
precisely when every candidate fails.  The hypothesis excludes the
impossible case of `local_ip()` returning the unspecified address
0.0.0.0. -/
theorem c10_bind_fallback_order (binds : IpAddr → Nat → Bool)
    (lan : Option IpAddr) (hlan : lan ≠ some anyIp) :
    serverBind binds lan
      = (((List.range' 8000 20).flatMap (attemptCandidates lan)).find?
          (fun c => binds c.1 c.2)).map advertise
    ∧ (serverBind binds lan = none ↔
        ∀ p ∈ List.range' 8000 20, ∀ c ∈ attemptCandidates lan p,
          binds c.1 c.2 = false) := by
  have h := bindLoop_eq_find binds hlan (List.range' 8000 20)
  refine ⟨h, ?_⟩
  rw [serverBind, h]
  constructor
  · intro hn p hp c hc
    rw [Option.map_eq_none'] at hn
    have := List.find?_eq_none.mp hn c (List.mem_flatMap.mpr ⟨p, hp, hc⟩)
    simpa using this
  · intro hall
    rw [Option.map_eq_none']
    apply List.find?_eq_none.mpr
    intro c hc
    obtain ⟨p, hp, hcp⟩ := List.mem_flatMap.mp hc
    simpa using hall p hp c hcp

/-- C10 witness: with a LAN address 192.168.1.2 and a network where only
0.0.0.0:8001 accepts the bind, the loop settles on port 8001 advertised
as loopback, matching the candidate-order characterization. -/
theorem c10_bind_fallback_order_witness :
    serverBind (fun ip p => decide (ip = anyIp ∧ p = 8001)) (some (.v4 192 168 1 2))
      = (((List.range' 8000 20).flatMap
            (attemptCandidates (some (.v4 192 168 1 2)))).find?
          (fun c => (fun ip p => decide (ip = anyIp ∧ p = 8001)) c.1 c.2)).map
          advertise := by
  exact (c10_bind_fallback_order (fun ip p => decide (ip = anyIp ∧ p = 8001))
    (some (.v4 192 168 1 2)) (by decide)).1
